import Mathlib

/-! Verification of the text-analysis pipeline of `src/app.py` (ResumePolish).
Text is modelled over `List Char`; the Python regular expressions the program
uses (all on ASCII, lowercased where the source lowercases) are hand-compiled
into executable matchers, with `\b` given its word-boundary semantics. -/

/-- Word character of the regex metacharacter \b: letter, digit or underscore
(the source matches on ASCII text it lowercases first). -/
def isWordChar (c : Char) : Bool := c.isAlpha || c.isDigit || c == '_'

/-- The character at index i, a blank when out of range (a blank is neither a
word character, a digit, nor any other class character used below). -/
def charAt (s : List Char) (i : Nat) : Char := s.getD i ' '

def isWordCharAt (s : List Char) (i : Nat) : Bool := isWordChar (charAt s i)

/-- Python re \b at position i: exactly one of the two neighbouring positions
holds a word character (positions outside the text hold none). -/
def boundaryAt (s : List Char) (i : Nat) : Bool :=
  match i with
  | 0 => isWordCharAt s 0
  | j + 1 => isWordCharAt s j != isWordCharAt s (j + 1)

/-- The pattern occurs literally at position i of s. -/
def listMatchAt (s pat : List Char) (i : Nat) : Bool :=
  (s.drop i).take pat.length == pat

/-- One match of the regex \b pat \b (pat a literal) at position i. -/
def wordMatchAt (s pat : List Char) (i : Nat) : Bool :=
  boundaryAt s i && listMatchAt s pat i && boundaryAt s (i + pat.length)

/-- re.search of \b pat \b somewhere in s. -/
def containsWord (s pat : List Char) : Bool :=
  (List.range (s.length + 1)).any fun i => wordMatchAt s pat i

/-- pat occurs somewhere inside s, boundaries ignored. -/
def containsSeq (pat s : List Char) : Bool :=
  (List.range (s.length + 1)).any fun i => listMatchAt s pat i

/-- Python str.lower over the underlying characters (ASCII). -/
def lowerData (s : String) : List Char := s.data.map Char.toLower

/-- Python str.title over ASCII text: a letter after a non-letter is
uppercased, every other letter lowercased. -/
def titleAux : List Char → Bool → List Char
  | [], _ => []
  | c :: rest, prevAlpha =>
    (if c.isAlpha then (if prevAlpha then c.toLower else c.toUpper) else c) ::
      titleAux rest c.isAlpha

def title (s : String) : String := String.mk (titleAux s.data false)

/-- len(text.split()) of Python: the number of maximal whitespace-free runs.
The boolean carries whether the previous character sat inside a run. -/
def countWords : List Char → Bool → Nat
  | [], _ => 0
  | c :: rest, inWord =>
    if c.isWhitespace then countWords rest false
    else (if inWord then 0 else 1) + countWords rest true

def word_count (text : String) : Nat := countWords text.data false

def isSentencePunct (c : Char) : Bool := c == '.' || c == '!' || c == '?'

/-- Split at every sentence delimiter; re.split on runs of [.!?] differs from
this only by extra blank segments, which the count below filters out. -/
def splitPunct : List Char → List (List Char)
  | [] => [[]]
  | c :: rest =>
    if isSentencePunct c then [] :: splitPunct rest
    else
      match splitPunct rest with
      | [] => [[c]]
      | seg :: segs => (c :: seg) :: segs

/-- Segments of the punctuation split that survive s.strip(). -/
def sentence_count (text : String) : Nat :=
  ((splitPunct text.data).filter fun seg => seg.any fun c => !c.isWhitespace).length

/-- skills_keywords of analyze_resume. -/
def skills_keywords : List String :=
  ["python", "java", "javascript", "sql", "html", "css", "react", "node",
   "machine learning", "data analysis", "project management", "agile",
   "communication", "leadership", "teamwork", "problem solving",
   "excel", "word", "powerpoint", "management", "development",
   "programming", "coding", "design", "analysis", "research",
   "database", "api", "web", "software", "technical", "cloud"]

/-- sections of analyze_resume. -/
def sections : List String :=
  ["experience", "education", "skills", "projects", "certifications",
   "summary", "objective", "contact"]

/-- action_verbs of analyze_resume. -/
def action_verbs : List String :=
  ["managed", "developed", "created", "implemented", "led", "improved",
   "increased", "reduced", "achieved", "built", "designed", "coordinated"]

/-- The keyword loop: every listed keyword found in the lowered text by a
\b-bounded search, appended title-cased in list order. -/
def found_keywords (text : String) : List String :=
  (skills_keywords.filter fun k => containsWord (lowerData text) k.data).map title

def found_sections (text : String) : List String :=
  (sections.filter fun sec => containsWord (lowerData text) sec.data).map title

def found_verbs (text : String) : List String :=
  (action_verbs.filter fun v => containsWord (lowerData text) v.data).map title

/-- [A-Za-z0-9._%+-] of the email pattern. -/
def isLocalChar (c : Char) : Bool :=
  c.isAlpha || c.isDigit || c == '.' || c == '_' || c == '%' || c == '+' || c == '-'

/-- [A-Za-z0-9.-] of the email pattern. -/
def isDomainChar (c : Char) : Bool := c.isAlpha || c.isDigit || c == '.' || c == '-'

/-- [A-Z|a-z] of the email pattern: letters and, literally, the bar. -/
def isTldChar (c : Char) : Bool := c.isAlpha || c == '|'

def allRange (s : List Char) (lo hi : Nat) (p : Char → Bool) : Bool :=
  (List.range (hi - lo)).all fun d => p (charAt s (lo + d))

/-- re.search of the email pattern: local part over [i,j), @ at j, domain over
[j+1,k), dot at k, a two-plus-character tld over [k+1,l), \b at both ends. -/
def has_email (s : List Char) : Bool :=
  (List.range (s.length + 1)).any fun i =>
    (List.range (s.length + 1)).any fun j =>
      (List.range (s.length + 1)).any fun k =>
        (List.range (s.length + 1)).any fun l =>
          boundaryAt s i && decide (i < j) && allRange s i j isLocalChar &&
          (charAt s j == '@') && decide (j + 1 < k) &&
          allRange s (j + 1) k isDomainChar &&
          (charAt s k == '.') && decide (k + 3 ≤ l) &&
          allRange s (k + 1) l isTldChar && boundaryAt s l

/-- [-.\s] of the phone pattern. -/
def isSep (c : Char) : Bool := c == '-' || c == '.' || c.isWhitespace

/-- k digits in a row starting at position i. -/
def digitRun (s : List Char) : Nat → Nat → Bool
  | _, 0 => true
  | i, k + 1 => (charAt s i).isDigit && digitRun s (i + 1) k

/-- The positions a single optional character (a ? atom) can end at. -/
def optAdv (s : List Char) (i : Nat) (p : Char → Bool) : List Nat :=
  if p (charAt s i) && decide (i < s.length) then [i, i + 1] else [i]

/-- Positions after the optional country-code group of the phone pattern:
absent, or an optional plus, one to three digits and an optional separator. -/
def ccGroupEnds (s : List Char) (i : Nat) : List Nat :=
  i :: ((optAdv s i fun c => c == '+').flatMap fun j =>
    ([1, 2, 3].filter fun d => digitRun s j d).flatMap fun d =>
      optAdv s (j + d) isSep)

/-- One match of the phone pattern starting at position i. -/
def phoneAt (s : List Char) (i : Nat) : Bool :=
  (ccGroupEnds s i).any fun j =>
    (optAdv s j fun c => c == '(').any fun k =>
      digitRun s k 3 &&
      ((optAdv s (k + 3) fun c => c == ')').any fun l =>
        (optAdv s l isSep).any fun m =>
          digitRun s m 3 &&
          ((optAdv s (m + 3) isSep).any fun q => digitRun s q 4))

/-- re.search of the phone pattern: a match starting anywhere. -/
def has_phone (s : List Char) : Bool :=
  (List.range (s.length + 1)).any fun i => phoneAt s i

/-- [A-Za-z0-9-] of the linkedin pattern. -/
def isHandleChar (c : Char) : Bool := c.isAlpha || c.isDigit || c == '-'

def linkedinLit : List Char := "linkedin.com/in/".data

/-- re.search of linkedin\.com/in/[A-Za-z0-9-]+ on the lowered text. -/
def has_linkedin (s : List Char) : Bool :=
  (List.range (s.length + 1)).any fun i =>
    listMatchAt s linkedinLit i && isHandleChar (charAt s (i + linkedinLit.length))

/-- The four polarity scores of the external sentiment engine (NLTK VADER);
the engine is an external collaborator, passed into the analysis as a
function. -/
structure SentimentScores where
  compound : ℚ
  pos : ℚ
  neg : ℚ
  neu : ℚ

/-- The analysis dictionary analyze_resume builds. -/
structure Metrics where
  word_count : Nat
  char_count : Nat
  sentence_count : Nat
  sentiment : ℚ
  positive_score : ℚ
  negative_score : ℚ
  neutral_score : ℚ
  found_keywords : List String
  keyword_count : Nat
  found_sections : List String
  has_email : Bool
  has_phone : Bool
  has_linkedin : Bool
  action_verbs : List String

/-- analyze_resume of app.py. -/
def analyze_resume (sia : String → SentimentScores) (text : String) : Metrics where
  word_count := word_count text
  char_count := text.length
  sentence_count := sentence_count text
  sentiment := (sia text).compound
  positive_score := (sia text).pos
  negative_score := (sia text).neg
  neutral_score := (sia text).neu
  found_keywords := found_keywords text
  keyword_count := (found_keywords text).length
  found_sections := found_sections text
  has_email := has_email text.data
  has_phone := has_phone text.data
  has_linkedin := has_linkedin (lowerData text)
  action_verbs := found_verbs text

/-- The score computation of the Analysis Results page, in its accumulation
order: word count, keywords, sections, contact, action verbs, sentiment. -/
def score (analysis : Metrics) : ℤ :=
  (if 400 ≤ analysis.word_count ∧ analysis.word_count ≤ 600 then (20 : ℤ)
   else if (300 ≤ analysis.word_count ∧ analysis.word_count < 400) ∨
       (600 < analysis.word_count ∧ analysis.word_count ≤ 800) then 15
   else 5)
  + min ((analysis.keyword_count : ℤ) * 2) 20
  + min ((analysis.found_sections.length : ℤ) * 4) 20
  + ((if analysis.has_email then (5 : ℤ) else 0) +
     (if analysis.has_phone then (5 : ℤ) else 0) +
     (if analysis.has_linkedin then (5 : ℤ) else 0))
  + min ((analysis.action_verbs.length : ℤ) * 2) 10
  + (if (1 : ℚ) / 10 < analysis.sentiment then (10 : ℤ)
     else if 0 < analysis.sentiment then 5 else 0)

/-- What the parsing libraries deliver from the uploaded bytes: a pdf page
list (page.extract_text yields None or a string), docx paragraphs, or an
exception while parsing (corrupt or mismatched content). -/
inductive FileData
  | pdf (pages : List (Option String))
  | docx (paras : List String)
  | corrupt (msg : String)

/-- An upload: the declared MIME type and the parse of the bytes. -/
structure UploadedFile where
  type : String
  data : FileData

def pdfMime : String := "application/pdf"

def docxMime : String :=
  "application/vnd.openxmlformats-officedocument.wordprocessingml.document"

/-- Python str.strip(). -/
def pyStrip (s : String) : String :=
  String.mk
    (((s.data.dropWhile Char.isWhitespace).reverse.dropWhile Char.isWhitespace).reverse)

/-- extract_text_from_file of app.py.  A branch whose library raises (corrupt
bytes, or bytes that are not of the declared type) is caught by the handler,
which shows st.error and returns the empty string; a declared type that is
neither pdf nor docx leaves text at the initial empty string. -/
def extract_text_from_file (f : UploadedFile) : String :=
  if f.type = pdfMime then
    match f.data with
    | .pdf pages =>
        pyStrip (pages.foldl (fun t p =>
          match p with
          | some pt => if pt = "" then t else t ++ pt ++ "\n"
          | none => t) "")
    | _ => ""
  else if f.type = docxMime then
    match f.data with
    | .docx paras =>
        pyStrip (paras.foldl
          (fun t p => if pyStrip p = "" then t else t ++ p ++ "\n") "")
    | _ => ""
  else
    pyStrip ""

/-- The outcome of the Upload Resume action past extraction. -/
inductive UploadOutcome
  | analyzed (m : Metrics)
  | insufficient

/-- The caller-side gate of the upload page:
if resume_text and len(resume_text.strip()) > 50, analyze and cache,
else report the insufficient-text error. -/
def upload_gate (sia : String → SentimentScores) (resume_text : String) :
    UploadOutcome :=
  if resume_text ≠ "" ∧ 50 < (pyStrip resume_text).length then
    .analyzed (analyze_resume sia resume_text)
  else .insufficient

def proceeded : UploadOutcome → Bool
  | .analyzed _ => true
  | .insufficient => false

/-- The css class of a suggestion card: positive-feedback or
improvement-feedback. -/
inductive FeedbackTag
  | positive
  | improvement

structure Suggestion where
  tag : FeedbackTag
  msg : String

def essential_sections : List String := ["Experience", "Education", "Skills"]

/-- missing_essential of the Tips page. -/
def missingEssential (analysis : Metrics) : List String :=
  essential_sections.filter fun sec => !analysis.found_sections.contains sec

/-- contact_missing of the Tips page. -/
def missingContact (analysis : Metrics) : List String :=
  (if analysis.has_email then [] else ["email"]) ++
  (if analysis.has_phone then [] else ["phone"]) ++
  (if analysis.has_linkedin then [] else ["LinkedIn"])

/-- The suggestion texts below carry the source's visible content with the
multi-line indentation of the Python literals condensed to single newlines. -/
def msgAddContent : String :=
  "<div class=\"improvement-feedback\">\n**📝 Add More Content**: Your resume is too brief (less than 300 words).\n- Add more details about your experiences and responsibilities\n- Include specific achievements with numbers\n- Consider adding projects or certifications sections\n</div>"

def msgReduceLength : String :=
  "<div class=\"improvement-feedback\">\n**✂️ Reduce Length**: Your resume is too long (over 800 words).\n- Focus on most relevant information\n- Remove outdated or less relevant experiences\n- Use bullet points instead of paragraphs\n- Keep only the last 10-15 years of experience\n</div>"

def msgGoodLength : String :=
  "<div class=\"positive-feedback\">\n**📝 Good Length**: Your resume has an appropriate word count. Keep it up!\n</div>"

def msgFewKeywordsPre : String :=
  "<div class=\"improvement-feedback\">\n**🔑 Add More Keywords**: Only found "

def msgFewKeywordsPost : String :=
  " relevant keywords.\n- Include more industry-specific technical skills\n- Add soft skills like communication, leadership\n- Mention specific tools and technologies you\x27ve used\n- Incorporate action verbs throughout\n</div>"

/-- The keyword-improvement card, its format slot filled with the count. -/
def msgFewKeywords (n : Nat) : String :=
  msgFewKeywordsPre ++ toString n ++ msgFewKeywordsPost

def msgGoodKeywordsPre : String :=
  "<div class=\"positive-feedback\">\n**🔑 Good Keyword Usage**: Found "

def msgGoodKeywordsPost : String := " relevant keywords. Well done!\n</div>"

def msgGoodKeywords (n : Nat) : String :=
  msgGoodKeywordsPre ++ toString n ++ msgGoodKeywordsPost

def msgMissingSections (missing : List String) : String :=
  "<div class=\"improvement-feedback\">\n**📑 Add Essential Sections**: Missing " ++
  String.intercalate ", " missing ++
  " section(s).\n- These are crucial for a complete resume\n- Use standard section headings\n- Ensure clear organization\n</div>"

def msgMissingContact (missing : List String) : String :=
  "<div class=\"improvement-feedback\">\n**📞 Add Contact Information**: Missing " ++
  String.intercalate ", " missing ++
  ".\n- Include professional email and phone\n- Add LinkedIn profile URL if available\n- Make it easy for employers to contact you\n</div>"

def msgFewVerbsPre : String :=
  "<div class=\"improvement-feedback\">\n**⚡ Use More Action Verbs**: Only found "

def msgFewVerbsPost : String :=
  " strong action verbs.\n- Start bullet points with verbs like: Managed, Developed, Created\n- Use past tense for previous roles\n- Show impact and responsibility\n</div>"

def msgFewVerbs (n : Nat) : String :=
  msgFewVerbsPre ++ toString n ++ msgFewVerbsPost

/-- The suggestions list of the Tips page, appended in the source's order:
length, keywords, essential sections, contact, action verbs. -/
def suggestions (analysis : Metrics) : List Suggestion :=
  (if analysis.word_count < 300 then [⟨.improvement, msgAddContent⟩]
   else if 800 < analysis.word_count then [⟨.improvement, msgReduceLength⟩]
   else [⟨.positive, msgGoodLength⟩])
  ++ (if analysis.keyword_count < 5 then
        [⟨.improvement, msgFewKeywords analysis.keyword_count⟩]
      else [⟨.positive, msgGoodKeywords analysis.keyword_count⟩])
  ++ (if missingEssential analysis = [] then []
      else [⟨.improvement, msgMissingSections (missingEssential analysis)⟩])
  ++ (if missingContact analysis = [] then []
      else [⟨.improvement, msgMissingContact (missingContact analysis)⟩])
  ++ (if analysis.action_verbs.length < 3 then
        [⟨.improvement, msgFewVerbs analysis.action_verbs.length⟩]
      else [])

/-- Sub-score of the word count as the specification words it: 20 on
[400,600], 15 on [300,399] and [601,800], 5 otherwise. -/
def wordCountScore (m : Metrics) : ℤ :=
  if 400 ≤ m.word_count ∧ m.word_count ≤ 600 then 20
  else if (300 ≤ m.word_count ∧ m.word_count ≤ 399) ∨
      (601 ≤ m.word_count ∧ m.word_count ≤ 800) then 15
  else 5

/-- Sub-score of the keywords as the specification words it. -/
def keywordScore (m : Metrics) : ℤ := min (2 * (m.keyword_count : ℤ)) 20

/-- Sub-score of the sections as the specification words it. -/
def sectionScore (m : Metrics) : ℤ := min (4 * (m.found_sections.length : ℤ)) 20

/-- Contact sub-score: 5 for each of email, phone, linkedin present. -/
def contactScore (m : Metrics) : ℤ :=
  (if m.has_email then 5 else 0) + (if m.has_phone then 5 else 0) +
    (if m.has_linkedin then 5 else 0)

/-- Sub-score of the action verbs as the specification words it. -/
def verbScore (m : Metrics) : ℤ := min (2 * (m.action_verbs.length : ℤ)) 10

/-- Sentiment sub-score: 10 when compound exceeds 0.1, 5 when compound is
positive but at most 0.1, else 0. -/
def sentimentScore (m : Metrics) : ℤ :=
  if (1 : ℚ) / 10 < m.sentiment then 10
  else if 0 < m.sentiment ∧ m.sentiment ≤ (1 : ℚ) / 10 then 5
  else 0

/-- A sentiment engine yielding all-zero scores, for concrete instantiation. -/
def zeroSia : String → SentimentScores := fun _ => ⟨0, 0, 0, 0⟩

theorem countWords_append_blank (xs : List Char) :
    ∀ (st : Bool) (ys : List Char),
      countWords (xs ++ ' ' :: ys) st = countWords xs st + countWords ys false := by
  induction xs with
  | nil =>
    intro st ys
    simp [countWords]
  | cons c rest ih =>
    intro st ys
    by_cases hc : c.isWhitespace = true
    · simp [countWords, hc, ih]
    · simp [countWords, hc, ih, Nat.add_assoc]

theorem containsSeq_middle (a b c : List Char) : containsSeq b (a ++ b ++ c) = true := by
  unfold containsSeq
  rw [List.any_eq_true]
  refine ⟨a.length, List.mem_range.mpr ?_, ?_⟩
  · simp only [List.length_append]
    omega
  · unfold listMatchAt
    rw [List.append_assoc, List.drop_left, List.take_left]
    exact beq_self_eq_true b

set_option maxHeartbeats 1000000 in
/-- C1: the score is the sum of the six sub-scores, each as the specification
states it. -/
theorem score_eq_sum_of_subscores (m : Metrics) :
    score m = wordCountScore m + keywordScore m + sectionScore m + contactScore m +
      verbScore m + sentimentScore m := by
  have hsent : sentimentScore m =
      (if (1 : ℚ) / 10 < m.sentiment then (10 : ℤ)
       else if 0 < m.sentiment then 5 else 0) := by
    unfold sentimentScore
    by_cases h1 : (1 : ℚ) / 10 < m.sentiment
    · rw [if_pos h1, if_pos h1]
    · rw [if_neg h1, if_neg h1]
      by_cases h2 : 0 < m.sentiment
      · rw [if_pos h2, if_pos ⟨h2, not_lt.mp h1⟩]
      · rw [if_neg h2, if_neg (fun hc => h2 hc.1)]
  have hword : wordCountScore m =
      (if 400 ≤ m.word_count ∧ m.word_count ≤ 600 then (20 : ℤ)
       else if (300 ≤ m.word_count ∧ m.word_count < 400) ∨
           (600 < m.word_count ∧ m.word_count ≤ 800) then 15
       else 5) := by
    unfold wordCountScore
    split_ifs <;> omega
  rw [hsent, hword]
  unfold score keywordScore sectionScore contactScore verbScore
  split_ifs <;> omega

set_option maxHeartbeats 1000000 in
/-- C2: for every Metrics value the score lies between 0 and 95. -/
theorem score_bounds (m : Metrics) : 0 ≤ score m ∧ score m ≤ 95 := by
  unfold score
  split_ifs <;> omega

/-- C9: the word count is monotone under concatenation with whitespace. -/
theorem word_count_mono_append (a b : String) :
    word_count a ≤ word_count (a ++ " " ++ b) := by
  unfold word_count
  have hdata : (a ++ " " ++ b).data = a.data ++ ' ' :: b.data := by
    simp [String.data_append]
  rw [hdata, countWords_append_blank]
  exact Nat.le_add_right _ _

/-- C3 counterexample: extraction returns the plain string "" both for an
unsupported declared type and for corrupt content of a supported type — the
very value a successful extraction of a textless pdf returns, so no error
result distinguishable from successfully extracted text exists. -/
theorem extract_error_indistinguishable :
    extract_text_from_file ⟨"text/plain", FileData.corrupt "bad"⟩ =
      extract_text_from_file ⟨"application/pdf", FileData.pdf [none]⟩ ∧
    extract_text_from_file ⟨"application/pdf", FileData.corrupt "bad"⟩ =
      extract_text_from_file ⟨"application/pdf", FileData.pdf [none]⟩ ∧
    extract_text_from_file ⟨"text/plain", FileData.corrupt "bad"⟩ = "" :=
  ⟨rfl, rfl, rfl⟩

/-- C3 amended: a declared type that is neither pdf nor docx yields the empty
string, and corrupt content of any declared type yields the empty string (the
parse error is shown in the UI only); neither is distinguishable from
successfully extracted empty text. -/
theorem extract_errors_yield_empty (ty msg : String) (d : FileData) :
    (ty ≠ pdfMime → ty ≠ docxMime → extract_text_from_file ⟨ty, d⟩ = "") ∧
    extract_text_from_file ⟨ty, FileData.corrupt msg⟩ = "" := by
  constructor
  · intro h1 h2
    unfold extract_text_from_file
    rw [if_neg h1, if_neg h2]
    rfl
  · unfold extract_text_from_file
    by_cases h1 : ty = pdfMime
    · rw [if_pos h1]
    · rw [if_neg h1]
      by_cases h2 : ty = docxMime
      · rw [if_pos h2]
      · rw [if_neg h2]
        rfl

/-- C4 counterexample: a resume whose stripped text has length exactly 50 is
rejected by the gate, though the claim says length at least 50 proceeds. -/
theorem gate_rejects_length_fifty :
    (pyStrip "aaaaaaaaaaaaaaaaaaaaaaaaaaaaaaaaaaaaaaaaaaaaaaaaaa").length = 50 ∧
    upload_gate zeroSia "aaaaaaaaaaaaaaaaaaaaaaaaaaaaaaaaaaaaaaaaaaaaaaaaaa" =
      UploadOutcome.insufficient :=
  ⟨by decide, rfl⟩

/-- C4 amended: the gate analyzes and caches exactly when the stripped
extracted text is strictly longer than 50 characters, and otherwise stops
with the insufficient-text error. -/
theorem upload_gate_iff (sia : String → SentimentScores) (s : String) :
    upload_gate sia s = UploadOutcome.analyzed (analyze_resume sia s) ↔
      50 < (pyStrip s).length := by
  unfold upload_gate
  by_cases h : s ≠ "" ∧ 50 < (pyStrip s).length
  · rw [if_pos h]
    exact iff_of_true rfl h.2
  · rw [if_neg h]
    constructor
    · intro hc
      exact UploadOutcome.noConfusion hc
    · intro hlen
      refine absurd ⟨fun hs => ?_, hlen⟩ h
      rw [hs] at hlen
      exact absurd hlen (by decide)

set_option maxHeartbeats 1000000 in
theorem skillsTitlesNodup : (skills_keywords.map title).Nodup := by decide

set_option maxHeartbeats 1000000 in
theorem sectionTitlesNodup : (sections.map title).Nodup := by decide

set_option maxHeartbeats 1000000 in
theorem verbTitlesNodup : (action_verbs.map title).Nodup := by decide

/-- C5: the three matched lists analyze produces are duplicate-free
subsequences of the title-cased fixed reference lists (8 section names,
12 action verbs, 32 skill keywords), in the fixed order. -/
theorem analyze_lists_nodup_ordered (sia : String → SentimentScores) (text : String) :
    (List.Sublist (analyze_resume sia text).found_keywords (skills_keywords.map title) ∧
      (analyze_resume sia text).found_keywords.Nodup) ∧
    (List.Sublist (analyze_resume sia text).found_sections (sections.map title) ∧
      (analyze_resume sia text).found_sections.Nodup) ∧
    (List.Sublist (analyze_resume sia text).action_verbs (action_verbs.map title) ∧
      (analyze_resume sia text).action_verbs.Nodup) ∧
    skills_keywords.length = 32 ∧ sections.length = 8 ∧ action_verbs.length = 12 := by
  have hk : List.Sublist (found_keywords text) (skills_keywords.map title) :=
    List.Sublist.map title (List.filter_sublist skills_keywords)
  have hs : List.Sublist (found_sections text) (sections.map title) :=
    List.Sublist.map title (List.filter_sublist sections)
  have hv : List.Sublist (found_verbs text) (action_verbs.map title) :=
    List.Sublist.map title (List.filter_sublist action_verbs)
  exact ⟨⟨hk, List.Nodup.sublist hk skillsTitlesNodup⟩,
    ⟨hs, List.Nodup.sublist hs sectionTitlesNodup⟩,
    ⟨hv, List.Nodup.sublist hv verbTitlesNodup⟩, rfl, rfl, rfl⟩

/-- C6: the suggestion rules run in the fixed order length, keywords,
sections, contact, verbs; the first two always emit one item whose kind
follows the stated thresholds, the last three emit one improvement item
exactly when something is missing, and the keyword and verb messages embed
the literal counts of the Metrics value. -/
theorem suggestions_follow_rules (m : Metrics) :
    ((suggestions m).map Suggestion.tag =
      [if m.word_count < 300 ∨ 800 < m.word_count then FeedbackTag.improvement
        else FeedbackTag.positive,
       if m.keyword_count < 5 then FeedbackTag.improvement else FeedbackTag.positive]
      ++ (if missingEssential m = [] then [] else [FeedbackTag.improvement])
      ++ (if missingContact m = [] then [] else [FeedbackTag.improvement])
      ++ (if m.action_verbs.length < 3 then [FeedbackTag.improvement] else []))
    ∧ ((suggestions m)[1]?).map Suggestion.msg =
        some (if m.keyword_count < 5 then msgFewKeywords m.keyword_count
              else msgGoodKeywords m.keyword_count)
    ∧ containsSeq (toString m.keyword_count).data
        ((((suggestions m)[1]?).getD (Suggestion.mk FeedbackTag.positive "")).msg).data = true
    ∧ (m.action_verbs.length < 3 →
        ((suggestions m).getLast?).map Suggestion.msg =
          some (msgFewVerbs m.action_verbs.length) ∧
        containsSeq (toString m.action_verbs.length).data
          (msgFewVerbs m.action_verbs.length).data = true) := by
  have hmid : ∀ (a b c : String),
      containsSeq b.data ((a ++ b ++ c) : String).data = true := by
    intro a b c
    rw [String.data_append, String.data_append]
    exact containsSeq_middle a.data b.data c.data
  have hget : (suggestions m)[1]? =
      some (if m.keyword_count < 5 then
        (Suggestion.mk FeedbackTag.improvement (msgFewKeywords m.keyword_count))
      else Suggestion.mk FeedbackTag.positive (msgGoodKeywords m.keyword_count)) := by
    unfold suggestions
    split_ifs <;> simp
  refine ⟨?_, ?_, ?_, ?_⟩
  · unfold suggestions
    split_ifs <;> first | omega | simp
  · rw [hget]
    by_cases h : m.keyword_count < 5
    · simp [h]
    · simp [h]
  · rw [hget]
    by_cases h : m.keyword_count < 5
    · rw [if_pos h]
      exact hmid msgFewKeywordsPre (toString m.keyword_count) msgFewKeywordsPost
    · rw [if_neg h]
      exact hmid msgGoodKeywordsPre (toString m.keyword_count) msgGoodKeywordsPost
  · intro hverb
    constructor
    · unfold suggestions
      rw [if_pos hverb]
      simp
    · exact hmid msgFewVerbsPre (toString m.action_verbs.length) msgFewVerbsPost

/-- C8: on the empty string the analysis is total and yields zero counts,
empty lists, no contact flags; with the engine neutral there, the score is
exactly 5, the word-count floor. -/
theorem analyze_empty_string (sia : String → SentimentScores)
    (h : (sia "").compound = 0) :
    (analyze_resume sia "").word_count = 0 ∧
    (analyze_resume sia "").char_count = 0 ∧
    (analyze_resume sia "").sentence_count = 0 ∧
    (analyze_resume sia "").found_keywords = [] ∧
    (analyze_resume sia "").found_sections = [] ∧
    (analyze_resume sia "").action_verbs = [] ∧
    (analyze_resume sia "").has_email = false ∧
    (analyze_resume sia "").has_phone = false ∧
    (analyze_resume sia "").has_linkedin = false ∧
    (analyze_resume sia "").sentiment = 0 ∧
    score (analyze_resume sia "") = 5 := by
  have hk : found_keywords "" = [] := by decide
  have hs : found_sections "" = [] := by decide
  have hv : found_verbs "" = [] := by decide
  refine ⟨rfl, rfl, rfl, hk, hs, hv, rfl, rfl, rfl, h, ?_⟩
  show score (analyze_resume sia "") = 5
  unfold score analyze_resume
  norm_num [hk, hs, hv, word_count, countWords, h,
    show has_email [] = false from rfl, show has_phone [] = false from rfl,
    show has_linkedin (lowerData "") = false from rfl]

/-- C8 witness at the all-zero sentiment engine. -/
theorem analyze_empty_string_witness :
    (analyze_resume zeroSia "").word_count = 0 ∧
    (analyze_resume zeroSia "").char_count = 0 ∧
    (analyze_resume zeroSia "").sentence_count = 0 ∧
    (analyze_resume zeroSia "").found_keywords = [] ∧
    (analyze_resume zeroSia "").found_sections = [] ∧
    (analyze_resume zeroSia "").action_verbs = [] ∧
    (analyze_resume zeroSia "").has_email = false ∧
    (analyze_resume zeroSia "").has_phone = false ∧
    (analyze_resume zeroSia "").has_linkedin = false ∧
    (analyze_resume zeroSia "").sentiment = 0 ∧
    score (analyze_resume zeroSia "") = 5 :=
  analyze_empty_string zeroSia rfl

theorem digitRun_zero (s : List Char) (i : Nat) : digitRun s i 0 = true := rfl

theorem digitRun_succ (s : List Char) (i k : Nat) :
    digitRun s i (k + 1) = ((charAt s i).isDigit && digitRun s (i + 1) k) := rfl

theorem charAt_isDigit_lt (s : List Char) (i : Nat)
    (h : (charAt s i).isDigit = true) : i < s.length := by
  by_contra hge
  push_neg at hge
  unfold charAt at h
  rw [List.getD_eq_getElem?_getD, List.getElem?_eq_none hge] at h
  exact absurd h (by decide)

theorem digitRun_le (s : List Char) :
    ∀ (k i : Nat), 0 < k → digitRun s i k = true → i + k ≤ s.length := by
  intro k
  induction k with
  | zero => intro i hpos _; omega
  | succ n ih =>
    intro i _ h
    rw [digitRun_succ, Bool.and_eq_true] at h
    obtain ⟨hd, hrest⟩ := h
    have hi : i < s.length := charAt_isDigit_lt s i hd
    cases n with
    | zero => omega
    | succ n2 =>
      have := ih (i + 1) (Nat.succ_pos n2) hrest
      omega

theorem digitRun_split (s : List Char) :
    ∀ (a i b : Nat), digitRun s i (a + b) = (digitRun s i a && digitRun s (i + a) b) := by
  intro a
  induction a with
  | zero => intro i b; simp [digitRun]
  | succ n ih =>
    intro i b
    rw [show n + 1 + b = (n + b) + 1 from by omega, digitRun_succ, digitRun_succ,
      ih (i + 1) b, show i + 1 + n = i + (n + 1) from by omega, Bool.and_assoc]

theorem mem_optAdv_self (s : List Char) (i : Nat) (p : Char → Bool) :
    i ∈ optAdv s i p := by
  unfold optAdv
  split
  · exact List.mem_cons_self _ _
  · exact List.mem_cons_self _ _

/-- C10: the phone pattern carries no boundary anchors, so any ten
consecutive digits anywhere in the text — also inside a longer digit run —
set has_phone. -/
theorem phone_true_on_ten_digits (sia : String → SentimentScores)
    (text : String) (i : Nat) (h : digitRun text.data i 10 = true) :
    (analyze_resume sia text).has_phone = true := by
  show has_phone text.data = true
  have hsplit := h
  rw [show (10 : Nat) = 3 + (3 + 4) from rfl, digitRun_split,
    digitRun_split] at hsplit
  simp only [Bool.and_eq_true] at hsplit
  obtain ⟨h3, h33, h34⟩ := hsplit
  unfold has_phone
  rw [List.any_eq_true]
  refine ⟨i, List.mem_range.mpr ?_, ?_⟩
  · have := digitRun_le text.data 10 i (by omega) h
    omega
  · unfold phoneAt
    rw [List.any_eq_true]
    refine ⟨i, List.mem_cons_self _ _, ?_⟩
    rw [List.any_eq_true]
    refine ⟨i, mem_optAdv_self _ _ _, ?_⟩
    rw [Bool.and_eq_true]
    refine ⟨h3, ?_⟩
    rw [List.any_eq_true]
    refine ⟨i + 3, mem_optAdv_self _ _ _, ?_⟩
    rw [List.any_eq_true]
    refine ⟨i + 3, mem_optAdv_self _ _ _, ?_⟩
    rw [Bool.and_eq_true]
    refine ⟨h33, ?_⟩
    rw [List.any_eq_true]
    exact ⟨i + 3 + 3, mem_optAdv_self _ _ _, h34⟩

/-- C10 witness: a sixteen-digit identifier with no separators. -/
theorem phone_true_on_ten_digits_witness :
    (analyze_resume zeroSia "id 1234567890123456 end").has_phone = true :=
  phone_true_on_ten_digits zeroSia "id 1234567890123456 end" 3 (by decide)

theorem listMatchAt_le (s pat : List Char) (i : Nat) (hne : pat ≠ [])
    (h : listMatchAt s pat i = true) : i + pat.length ≤ s.length := by
  unfold listMatchAt at h
  have heq : (s.drop i).take pat.length = pat := eq_of_beq h
  have hlen := congrArg List.length heq
  simp only [List.length_take, List.length_drop] at hlen
  have hpos : 0 < pat.length := List.length_pos.mpr hne
  omega

theorem listMatchAt_charAt (s pat : List Char) (i j : Nat)
    (h : listMatchAt s pat i = true) (hj : j < pat.length) :
    charAt s (i + j) = charAt pat j := by
  unfold listMatchAt at h
  have heq : (s.drop i).take pat.length = pat := eq_of_beq h
  unfold charAt
  conv_rhs => rw [← heq]
  rw [List.getD_eq_getElem?_getD, List.getD_eq_getElem?_getD,
    List.getElem?_take_of_lt hj, List.getElem?_drop]

theorem skills_edges_words :
    skills_keywords.all (fun k => isWordChar (charAt k.data 0) &&
      isWordChar (charAt k.data (k.data.length - 1))) = true := by decide

theorem pat_ne_nil_of_first_word (pat : List Char)
    (hfirst : isWordChar (charAt pat 0) = true) : 0 < pat.length := by
  by_contra hl
  push_neg at hl
  have hnil : pat = [] := List.length_eq_zero.mp (by omega)
  rw [hnil] at hfirst
  exact absurd hfirst (by decide)

theorem boundaryAt_succ (s : List Char) (j : Nat) :
    boundaryAt s (j + 1) = (isWordCharAt s j != isWordCharAt s (j + 1)) := rfl

theorem boundary_match_left (s pat : List Char) (i : Nat)
    (hm : listMatchAt s pat i = true)
    (hfirst : isWordChar (charAt pat 0) = true)
    (hb : boundaryAt s i = true) :
    i = 0 ∨ isWordCharAt s (i - 1) = false := by
  cases i with
  | zero => exact Or.inl rfl
  | succ j =>
    right
    have hc : charAt s (j + 1) = charAt pat 0 := by
      have h0 := listMatchAt_charAt s pat (j + 1) 0 hm
        (pat_ne_nil_of_first_word pat hfirst)
      simpa using h0
    have hw : isWordCharAt s (j + 1) = true := by
      unfold isWordCharAt
      rw [hc]
      exact hfirst
    rw [boundaryAt_succ, hw] at hb
    cases hx : isWordCharAt s j
    · exact hx
    · rw [hx] at hb
      exact absurd hb (by decide)

theorem boundary_match_right (s pat : List Char) (i : Nat)
    (hm : listMatchAt s pat i = true)
    (hlast : isWordChar (charAt pat (pat.length - 1)) = true)
    (hb : boundaryAt s (i + pat.length) = true) :
    isWordCharAt s (i + pat.length) = false := by
  have hlen : 0 < pat.length := by
    by_contra hl
    push_neg at hl
    have hnil : pat = [] := List.length_eq_zero.mp (by omega)
    rw [hnil] at hlast
    exact absurd hlast (by decide)
  obtain ⟨n, hn⟩ : ∃ n, i + pat.length = n + 1 := ⟨i + pat.length - 1, by omega⟩
  rw [hn] at hb ⊢
  rw [boundaryAt_succ] at hb
  have hc : charAt s n = charAt pat (pat.length - 1) := by
    have h0 := listMatchAt_charAt s pat i (pat.length - 1) hm (by omega)
    rw [show i + (pat.length - 1) = n from by omega] at h0
    exact h0
  have hw : isWordCharAt s n = true := by
    unfold isWordCharAt
    rw [hc]
    exact hlast
  rw [hw] at hb
  cases hx : isWordCharAt s (n + 1)
  · rfl
  · rw [hx] at hb
    exact absurd hb (by decide)

theorem found_keyword_containsWord (text k : String) (hk : k ∈ skills_keywords)
    (hmem : title k ∈ found_keywords text) :
    containsWord (lowerData text) k.data = true := by
  unfold found_keywords at hmem
  obtain ⟨k2, hk2mem, hk2eq⟩ := List.mem_map.mp hmem
  obtain ⟨hk2in, hk2p⟩ := List.mem_filter.mp hk2mem
  have hkk : k2 = k := List.inj_on_of_nodup_map skillsTitlesNodup hk2in hk hk2eq
  rwa [hkk] at hk2p

set_option maxHeartbeats 2000000 in
/-- C7: every keyword analyze reports occurs in the lowered text with no
word character adjacent on either side (it is never a proper substring of a
longer alphanumeric token); concretely, a text with the token javascript and
no standalone java yields Javascript but not Java, and a standalone java
yields Java. -/
theorem keyword_matching_word_bounded :
    (∀ (sia : String → SentimentScores) (text k : String), k ∈ skills_keywords →
      title k ∈ (analyze_resume sia text).found_keywords →
      ∃ i, listMatchAt (lowerData text) k.data i = true ∧
        (i = 0 ∨ isWordCharAt (lowerData text) (i - 1) = false) ∧
        isWordCharAt (lowerData text) (i + k.data.length) = false) ∧
    (∀ sia, (analyze_resume sia "I build javascript apps").found_keywords =
      ["Javascript"]) ∧
    (∀ sia, (analyze_resume sia "senior java developer").found_keywords =
      ["Java"]) := by
  refine ⟨?_, ?_, ?_⟩
  · intro sia text k hk hmem
    have hcw := found_keyword_containsWord text k hk hmem
    unfold containsWord at hcw
    obtain ⟨i, hirange, hi⟩ := List.any_eq_true.mp hcw
    unfold wordMatchAt at hi
    rw [Bool.and_eq_true, Bool.and_eq_true] at hi
    obtain ⟨⟨hb1, hmatch⟩, hb2⟩ := hi
    have hedge := List.all_eq_true.mp skills_edges_words k hk
    rw [Bool.and_eq_true] at hedge
    exact ⟨i, hmatch,
      boundary_match_left _ _ _ hmatch hedge.1 hb1,
      boundary_match_right _ _ _ hmatch hedge.2 hb2⟩
  · intro sia
    show found_keywords "I build javascript apps" = ["Javascript"]
    rfl
  · intro sia
    show found_keywords "senior java developer" = ["Java"]
    rfl
